import Mathlib

/-!
Shallow embedding of the multi-agent task subsystem of `stark-backend`
(`src/ai/multi_agent/types.rs`, `src/ai/multi_agent/tools.rs`) together with a
spec-modelled execution registry, and proofs about the task-graph operations.
-/

set_option maxHeartbeats 1000000

namespace StarkBot

/-- `AgentMode` from `types.rs`: the current mode/phase of the multi-agent system. -/
inductive AgentMode where
  | initializer
  | explore
  | plan
  | perform
deriving DecidableEq, Repr, Fintype

/-- `TaskStatus` from `types.rs`: task status in the task list. -/
inductive TaskStatus where
  | pending
  | inProgress
  | completed
  | failed
  | blocked
deriving DecidableEq, Repr

/-- `Task` from `types.rs`. `tool_params: Option<serde_json::Value>` is embedded with the
JSON value kept as its serialized string, which no operation here inspects. -/
structure Task where
  id : String
  subject : String
  description : String
  status : TaskStatus
  blocked_by : List String
  blocks : List String
  tool : Option String
  tool_params : Option String
  result : Option String
  error : Option String
  parallelizable : Bool
  priority : Nat
deriving DecidableEq, Repr

/-- `Relevance` from `types.rs`. -/
inductive Relevance where
  | high
  | medium
  | low
deriving DecidableEq, Repr

/-- `Finding` from `types.rs`: a finding discovered during exploration. -/
structure Finding where
  category : String
  content : String
  relevance : Relevance
  files : List String
deriving DecidableEq, Repr

/-- `Task::new` from `types.rs`: a fresh `Pending` task with no dependencies,
`parallelizable` and default priority 100. -/
def Task.new (id subject description : String) : Task :=
  { id := id, subject := subject, description := description,
    status := TaskStatus.pending, blocked_by := [], blocks := [],
    tool := none, tool_params := none, result := none, error := none,
    parallelizable := true, priority := 100 }

/-- `Task::is_ready` from `types.rs`: a task is ready when it is `Pending` and every
dependency in `blocked_by` occurs in `completed_tasks`. -/
def Task.is_ready (t : Task) (completed_tasks : List String) : Bool :=
  t.status == TaskStatus.pending
    && t.blocked_by.all (fun dep => completed_tasks.contains dep)

/-- `AgentContext` from `types.rs`: context accumulated during the multi-agent flow. -/
structure AgentContext where
  original_request : String
  exploration_notes : List String
  findings : List Finding
  tasks : List Task
  plan_summary : Option String
  mode : AgentMode
  mode_iterations : Nat
  total_iterations : Nat
  context_sufficient : Bool
  plan_ready : Bool
  scratchpad : String
deriving DecidableEq, Repr

/-- `AgentContext`'s derived `Default`: empty strings, lists and options, flags false,
counters zero, mode `Initializer` (`AgentMode::default`). -/
def AgentContext.default : AgentContext :=
  { original_request := "", exploration_notes := [], findings := [], tasks := [],
    plan_summary := none, mode := AgentMode.initializer, mode_iterations := 0,
    total_iterations := 0, context_sufficient := false, plan_ready := false,
    scratchpad := "" }

/-- The `completed` id list computed at the top of `get_ready_tasks` and
`update_blocked_status`: ids of the tasks whose status is `Completed`, in list order. -/
def completedIds (tasks : List Task) : List String :=
  (tasks.filter (fun t => t.status == TaskStatus.completed)).map (fun t => t.id)

/-- `AgentContext::get_ready_tasks` from `types.rs`. -/
def AgentContext.get_ready_tasks (ctx : AgentContext) : List Task :=
  ctx.tasks.filter (fun t => t.is_ready (completedIds ctx.tasks))

/-- `AgentContext::get_next_task` from `types.rs`: `min_by_key` on priority over the
ready tasks. Rust's `Iterator::min_by_key` returns the first of several equally
minimal elements, which the left fold below reproduces. -/
def AgentContext.get_next_task (ctx : AgentContext) : Option Task :=
  match ctx.get_ready_tasks with
  | [] => none
  | t :: ts => some (ts.foldl (fun acc x => if x.priority < acc.priority then x else acc) t)

/-- The per-task body of the loop of `AgentContext::update_blocked_status`. -/
def updateTaskBlocked (completed : List String) (task : Task) : Task :=
  if task.status == TaskStatus.pending || task.status == TaskStatus.blocked then
    let is_blocked := !(task.blocked_by.all (fun dep => completed.contains dep))
    { task with status := if is_blocked then TaskStatus.blocked else TaskStatus.pending }
  else task

/-- `AgentContext::update_blocked_status` from `types.rs`: recompute `Pending`/`Blocked`
for every task against the set of `Completed` task ids. -/
def AgentContext.update_blocked_status (ctx : AgentContext) : AgentContext :=
  let completed := completedIds ctx.tasks
  { ctx with tasks := ctx.tasks.map (updateTaskBlocked completed) }

/-- A fragment of `serde_json::Value`, enough for the schema defaults built with
`json!` in `tools.rs` (`json!("medium")`, `json!([])`, `json!(100)`). -/
inductive Json where
  | str (s : String)
  | num (n : Nat)
  | arr (elems : List Json)

/-- `PropertySchema` as constructed throughout `tools.rs`: `schema_type`, `description`,
`default`, `items` (a boxed child schema) and `enum_values`. Recursive, hence an
inductive with one constructor. -/
inductive PropertySchema where
  | mk (schema_type : String) (description : String) (default : Option Json)
      (items : Option PropertySchema) (enum_values : Option (List String))

/-- `ToolInputSchema` as constructed in `tools.rs`; the `HashMap<String, PropertySchema>`
of properties is embedded as the association list of the insertions, in program order. -/
structure ToolInputSchema where
  schema_type : String
  properties : List (String × PropertySchema)
  required : List String

/-- `ToolGroup`: every tool in `tools.rs` is built with `ToolGroup::System`. -/
inductive ToolGroup where
  | system
deriving DecidableEq, Repr

/-- `ToolDefinition` as constructed in `tools.rs`. -/
structure ToolDefinition where
  name : String
  description : String
  input_schema : ToolInputSchema
  group : ToolGroup

/-- `select_mode_tool` from `tools.rs`. -/
def select_mode_tool : ToolDefinition :=
  { name := "select_mode"
    description := "Select the agent mode. Use 'explore' to gather information first, 'plan' to create a multi-step plan, or 'perform' for simple direct actions."
    input_schema :=
      { schema_type := "object"
        properties :=
          [ ("mode", PropertySchema.mk "string" "The mode to transition to" none none
              (some ["explore", "plan", "perform"]))
          , ("reasoning", PropertySchema.mk "string"
              "Why this mode is appropriate for the request" none none none) ]
        required := ["mode", "reasoning"] }
    group := ToolGroup.system }

/-- `add_finding_tool` from `tools.rs`. -/
def add_finding_tool : ToolDefinition :=
  { name := "add_finding"
    description := "Record an important discovery during exploration. Findings are used to inform the planning phase."
    input_schema :=
      { schema_type := "object"
        properties :=
          [ ("category", PropertySchema.mk "string" "Category of finding" none none
              (some ["code_pattern", "file_structure", "dependency", "constraint", "risk", "other"]))
          , ("content", PropertySchema.mk "string" "What you discovered" none none none)
          , ("relevance", PropertySchema.mk "string" "How relevant to the task"
              (some (Json.str "medium")) none (some ["high", "medium", "low"]))
          , ("files", PropertySchema.mk "array" "Related file paths" (some (Json.arr []))
              (some (PropertySchema.mk "string" "File path" none none none)) none) ]
        required := ["category", "content"] }
    group := ToolGroup.system }

/-- `ready_to_plan_tool` from `tools.rs`. -/
def ready_to_plan_tool : ToolDefinition :=
  { name := "ready_to_plan"
    description := "Signal that exploration is complete. Call this when you have gathered enough context to create a plan."
    input_schema :=
      { schema_type := "object"
        properties :=
          [ ("summary", PropertySchema.mk "string"
              "Summary of what was learned and why you're ready to plan" none none none) ]
        required := ["summary"] }
    group := ToolGroup.system }

/-- `create_task_tool` from `tools.rs`. -/
def create_task_tool : ToolDefinition :=
  { name := "create_task"
    description := "Add a task to the execution plan. Tasks can have dependencies and run in parallel when possible."
    input_schema :=
      { schema_type := "object"
        properties :=
          [ ("id", PropertySchema.mk "string"
              "Unique task ID (e.g., 'task-1', 'setup-db')" none none none)
          , ("subject", PropertySchema.mk "string"
              "Short task title (imperative form, e.g., 'Create user model')" none none none)
          , ("description", PropertySchema.mk "string"
              "Detailed description of what needs to be done" none none none)
          , ("blocked_by", PropertySchema.mk "array"
              "IDs of tasks that must complete before this one can start" (some (Json.arr []))
              (some (PropertySchema.mk "string" "Task ID" none none none)) none)
          , ("tool", PropertySchema.mk "string"
              "Primary tool to use for this task (optional)" none none none)
          , ("priority", PropertySchema.mk "integer"
              "Priority (1=highest, 100=default). Lower numbers execute first among ready tasks."
              (some (Json.num 100)) none none) ]
        required := ["id", "subject", "description"] }
    group := ToolGroup.system }

/-- `set_plan_summary_tool` from `tools.rs`. -/
def set_plan_summary_tool : ToolDefinition :=
  { name := "set_plan_summary"
    description := "Set the overall plan summary/goal."
    input_schema :=
      { schema_type := "object"
        properties :=
          [ ("summary", PropertySchema.mk "string"
              "One-line summary of what the plan accomplishes" none none none) ]
        required := ["summary"] }
    group := ToolGroup.system }

/-- `ready_to_perform_tool` from `tools.rs`. -/
def ready_to_perform_tool : ToolDefinition :=
  { name := "ready_to_perform"
    description := "Signal that planning is complete and execution can begin. Must have at least one task created."
    input_schema :=
      { schema_type := "object"
        properties :=
          [ ("confirmation", PropertySchema.mk "string"
              "Confirm the plan is complete and ready for execution" none none none) ]
        required := ["confirmation"] }
    group := ToolGroup.system }

/-- `start_task_tool` from `tools.rs`. -/
def start_task_tool : ToolDefinition :=
  { name := "start_task"
    description := "Mark a task as in-progress. Call this before working on a task."
    input_schema :=
      { schema_type := "object"
        properties :=
          [ ("task_id", PropertySchema.mk "string"
              "ID of the task to start working on" none none none) ]
        required := ["task_id"] }
    group := ToolGroup.system }

/-- `complete_task_tool` from `tools.rs`. -/
def complete_task_tool : ToolDefinition :=
  { name := "complete_task"
    description := "Mark a task as completed successfully."
    input_schema :=
      { schema_type := "object"
        properties :=
          [ ("task_id", PropertySchema.mk "string" "ID of the completed task" none none none)
          , ("result", PropertySchema.mk "string" "What was accomplished" none none none) ]
        required := ["task_id", "result"] }
    group := ToolGroup.system }

/-- `fail_task_tool` from `tools.rs`. -/
def fail_task_tool : ToolDefinition :=
  { name := "fail_task"
    description := "Mark a task as failed. Include error details."
    input_schema :=
      { schema_type := "object"
        properties :=
          [ ("task_id", PropertySchema.mk "string" "ID of the failed task" none none none)
          , ("error", PropertySchema.mk "string" "What went wrong" none none none) ]
        required := ["task_id", "error"] }
    group := ToolGroup.system }

/-- `finish_execution_tool` from `tools.rs`. -/
def finish_execution_tool : ToolDefinition :=
  { name := "finish_execution"
    description := "Signal that all tasks are complete and provide a final summary."
    input_schema :=
      { schema_type := "object"
        properties :=
          [ ("summary", PropertySchema.mk "string"
              "Final summary of what was accomplished" none none none)
          , ("follow_up", PropertySchema.mk "string"
              "Any recommended follow-up actions" none none none) ]
        required := ["summary"] }
    group := ToolGroup.system }

/-- `add_note_tool` from `tools.rs`. -/
def add_note_tool : ToolDefinition :=
  { name := "add_note"
    description := "Add a note to the scratchpad. Use for observations or information to remember."
    input_schema :=
      { schema_type := "object"
        properties :=
          [ ("note", PropertySchema.mk "string" "Note content to remember" none none none) ]
        required := ["note"] }
    group := ToolGroup.system }

/-- `get_task_list_tool` from `tools.rs`. -/
def get_task_list_tool : ToolDefinition :=
  { name := "get_task_list"
    description := "Get the current task list with status. Shows which tasks are ready, blocked, in-progress, or complete."
    input_schema :=
      { schema_type := "object"
        properties := []
        required := [] }
    group := ToolGroup.system }

/-- `get_tools_for_mode` from `tools.rs`: the fixed tool catalog of each agent mode. -/
def get_tools_for_mode : AgentMode → List ToolDefinition
  | AgentMode.initializer =>
      [ select_mode_tool ]
  | AgentMode.explore =>
      [ add_finding_tool, add_note_tool, ready_to_plan_tool ]
  | AgentMode.plan =>
      [ create_task_tool, set_plan_summary_tool, add_note_tool, get_task_list_tool,
        ready_to_perform_tool ]
  | AgentMode.perform =>
      [ start_task_tool, complete_task_tool, fail_task_tool, add_note_tool,
        get_task_list_tool, finish_execution_tool ]

/-- The names of the tools in a mode's catalog. -/
def toolNames (mode : AgentMode) : List String :=
  (get_tools_for_mode mode).map (fun t => t.name)

/-- Modelled from the spec: the registry error taxonomy entry `AlreadyRunning`
(the execution-registry implementation is not among the provided sources; only its
callers in `controllers/chat.rs` are). -/
inductive RegistryError where
  | alreadyRunning
deriving DecidableEq, Repr

/-- Modelled from the spec: an `ExecutionHandle` — `channel_id`, `session_id`,
cancellation flag, opaque `execution_id`, creation timestamp (the execution-registry
implementation is not among the provided sources). -/
structure ExecutionHandle where
  channel_id : Nat
  session_id : Nat
  cancelled : Bool
  execution_id : String
  created_at : Nat
deriving DecidableEq, Repr

/-- Modelled from the spec: the Execution Registry's channel-to-handle map of live
top-level executions, embedded as the list of live top-level handles (the
execution-registry implementation is not among the provided sources). -/
structure ExecutionRegistry where
  handles : List ExecutionHandle
deriving DecidableEq, Repr

/-- Whether the registry holds a live top-level handle for `channel_id`. -/
def ExecutionRegistry.hasLive (reg : ExecutionRegistry) (channel_id : Nat) : Bool :=
  reg.handles.any (fun h => h.channel_id == channel_id)

/-- Modelled from the spec: `start(channel_id, session_id) -> ExecutionHandle` — fails
with `AlreadyRunning` if a live top-level handle already exists for `channel_id`,
otherwise atomically check-and-inserts a fresh handle (the execution-registry
implementation is not among the provided sources; `execution_id` and the creation
timestamp are supplied by the environment). -/
def ExecutionRegistry.start (reg : ExecutionRegistry) (channel_id session_id : Nat)
    (execution_id : String) (now : Nat) :
    Except RegistryError (ExecutionHandle × ExecutionRegistry) :=
  if reg.hasLive channel_id then
    Except.error RegistryError.alreadyRunning
  else
    let h : ExecutionHandle :=
      { channel_id := channel_id, session_id := session_id, cancelled := false,
        execution_id := execution_id, created_at := now }
    Except.ok (h, { handles := h :: reg.handles })

/-- Modelled from the spec: a terminal or cancelled top-level execution leaves the
live map, removing its channel's handle (the execution-registry implementation is not
among the provided sources). -/
def ExecutionRegistry.removeChannel (reg : ExecutionRegistry) (channel_id : Nat) :
    ExecutionRegistry :=
  { handles := reg.handles.filter (fun h => h.channel_id != channel_id) }

/-- The registry invariant: at most one live top-level handle per channel. -/
def ExecutionRegistry.atMostOnePerChannel (reg : ExecutionRegistry) : Prop :=
  ∀ c : Nat, ((reg.handles.filter (fun h => h.channel_id == c)).length ≤ 1)

/-- The consistency the blocking-status pass establishes: every `Pending` task has all
dependencies completed, every `Blocked` task has an uncompleted dependency. -/
def consistentBlocked (tasks : List Task) : Prop :=
  ∀ t ∈ tasks,
    (t.status = TaskStatus.pending →
      t.blocked_by.all (fun dep => (completedIds tasks).contains dep) = true) ∧
    (t.status = TaskStatus.blocked →
      t.blocked_by.all (fun dep => (completedIds tasks).contains dep) = false)

/-- A concrete `Completed` task used to evaluate the frame property. -/
def frameTask : Task :=
  { Task.new "a" "Task a" "first task" with status := TaskStatus.completed }

/-- A concrete context holding `frameTask`. -/
def frameCtx : AgentContext :=
  { AgentContext.default with tasks := [frameTask] }

/-- A concrete `Pending` task with no dependencies. -/
def exA : Task := Task.new "a" "Task a" "first"

/-- A concrete `Blocked` task depending on `exA`. -/
def exB : Task :=
  { Task.new "b" "Task b" "second" with
      status := TaskStatus.blocked, blocked_by := ["a"] }

/-- A concrete context holding `exA` and `exB`. -/
def exCtx : AgentContext :=
  { AgentContext.default with tasks := [exA, exB] }

/-- A concrete `Pending` task of priority 5. -/
def prioA : Task := { Task.new "p1" "P1" "low priority" with priority := 5 }

/-- A concrete `Pending` task of priority 3, created before `prioC`. -/
def prioB : Task := { Task.new "p2" "P2" "first of the tie" with priority := 3 }

/-- A concrete `Pending` task of priority 3, created after `prioB`. -/
def prioC : Task := { Task.new "p3" "P3" "second of the tie" with priority := 3 }

/-- A concrete context with a priority tie between `prioB` and `prioC`. -/
def prioCtx : AgentContext :=
  { AgentContext.default with tasks := [prioA, prioB, prioC] }

/-- `exCtx` after exactly one change: `exA`'s status set to `Completed`. -/
def exCtxDone : AgentContext :=
  { AgentContext.default with
      tasks := [{ exA with status := TaskStatus.completed }, exB] }

/-- A stale context: `c4B` is `Blocked` although it has no dependency at all. -/
def c4B : Task := { Task.new "b" "B" "stale blocked task" with status := TaskStatus.blocked }

/-- A context pairing the pending `exA` with the stale blocked `c4B`. -/
def c4Pre : AgentContext := { AgentContext.default with tasks := [exA, c4B] }

/-- `c4Pre` after exactly one change: `exA`'s status set to `Completed`. -/
def c4Post : AgentContext :=
  { AgentContext.default with
      tasks := [{ exA with status := TaskStatus.completed }, c4B] }

/-- A concrete `Pending` task naming a dependency id that matches no task. -/
def danglingTask : Task :=
  { Task.new "c" "Task c" "third" with blocked_by := ["zzz"] }

/-- A concrete context whose only task has a dangling dependency. -/
def danglingCtx : AgentContext :=
  { AgentContext.default with tasks := [danglingTask] }

lemma mem_completedIds {tasks : List Task} {s : String} :
    s ∈ completedIds tasks ↔ ∃ t ∈ tasks, t.status = TaskStatus.completed ∧ t.id = s := by
  simp only [completedIds, List.mem_map, List.mem_filter, beq_iff_eq]
  constructor
  · rintro ⟨t, ⟨hmem, hst⟩, hid⟩
    exact ⟨t, hmem, hst, hid⟩
  · rintro ⟨t, hmem, hst, hid⟩
    exact ⟨t, ⟨hmem, hst⟩, hid⟩

lemma updateTaskBlocked_eq_of_not_pb (c : List String) (t : Task)
    (h1 : t.status ≠ TaskStatus.pending) (h2 : t.status ≠ TaskStatus.blocked) :
    updateTaskBlocked c t = t := by
  unfold updateTaskBlocked
  rw [if_neg]
  simp [h1, h2]

lemma updateTaskBlocked_pb (c : List String) (t : Task)
    (h : t.status = TaskStatus.pending ∨ t.status = TaskStatus.blocked) :
    updateTaskBlocked c t =
      { t with status :=
          if t.blocked_by.all (fun dep => c.contains dep) then TaskStatus.pending
          else TaskStatus.blocked } := by
  unfold updateTaskBlocked
  rw [if_pos]
  · cases hb : t.blocked_by.all (fun dep => c.contains dep) <;> simp [hb]
  · rcases h with h | h <;> simp [h]

lemma completedIds_append (a b : List Task) :
    completedIds (a ++ b) = completedIds a ++ completedIds b := by
  simp [completedIds]

lemma completedIds_cons_of_ne (t : Task) (ts : List Task)
    (h : t.status ≠ TaskStatus.completed) :
    completedIds (t :: ts) = completedIds ts := by
  simp [completedIds, List.filter_cons, h]

lemma completedIds_cons_of_eq (t : Task) (ts : List Task)
    (h : t.status = TaskStatus.completed) :
    completedIds (t :: ts) = t.id :: completedIds ts := by
  simp [completedIds, List.filter_cons, h]

lemma updateTaskBlocked_status_ne_completed (c : List String) (t : Task) :
    (updateTaskBlocked c t).status = TaskStatus.completed ↔
      t.status = TaskStatus.completed := by
  by_cases h : t.status = TaskStatus.pending ∨ t.status = TaskStatus.blocked
  · rw [updateTaskBlocked_pb c t h]
    constructor
    · intro hc
      split at hc <;> exact absurd hc (by simp)
    · intro hc
      rcases h with h | h <;> rw [h] at hc <;> exact absurd hc (by simp)
  · push_neg at h
    rw [updateTaskBlocked_eq_of_not_pb c t h.1 h.2]

lemma updateTaskBlocked_id (c : List String) (t : Task) :
    (updateTaskBlocked c t).id = t.id := by
  unfold updateTaskBlocked
  split
  · rfl
  · rfl

lemma completedIds_map_updateTaskBlocked (c : List String) (l : List Task) :
    completedIds (l.map (updateTaskBlocked c)) = completedIds l := by
  induction l with
  | nil => rfl
  | cons t ts ih =>
    rw [List.map_cons]
    by_cases hc : t.status = TaskStatus.completed
    · have hne : ¬(t.status = TaskStatus.pending ∨ t.status = TaskStatus.blocked) := by
        rw [hc]; simp
      push_neg at hne
      rw [updateTaskBlocked_eq_of_not_pb c t hne.1 hne.2,
        completedIds_cons_of_eq t _ hc, completedIds_cons_of_eq t _ hc, ih]
    · rw [completedIds_cons_of_ne _ _
        (fun hx => hc ((updateTaskBlocked_status_ne_completed c t).mp hx)),
        completedIds_cons_of_ne t ts hc, ih]

/-- C3: `is_ready` holds exactly when the task is `Pending` and every dependency in
`blocked_by` appears in the completed list, and `get_ready_tasks` returns exactly the
tasks of the context satisfying `is_ready` against the ids of the `Completed` tasks. -/
theorem is_ready_and_ready_tasks_spec :
    (∀ (t : Task) (completed : List String),
      t.is_ready completed = true ↔
        (t.status = TaskStatus.pending ∧ ∀ d ∈ t.blocked_by, d ∈ completed)) ∧
    (∀ (ctx : AgentContext) (t : Task),
      t ∈ ctx.get_ready_tasks ↔
        t ∈ ctx.tasks ∧ t.is_ready (completedIds ctx.tasks) = true) := by
  constructor
  · intro t completed
    simp [Task.is_ready, List.all_eq_true]
  · intro ctx t
    simp [AgentContext.get_ready_tasks, List.mem_filter]

/-- C6: the Initializer catalog is exactly `select_mode`; the Explore catalog is exactly
`add_finding`, `add_note`, `ready_to_plan`; the Perform catalog is exactly `start_task`,
`complete_task`, `fail_task`, `add_note`, `get_task_list`, `finish_execution`. -/
theorem tools_for_mode_catalogs :
    toolNames AgentMode.initializer = ["select_mode"] ∧
    toolNames AgentMode.explore = ["add_finding", "add_note", "ready_to_plan"] ∧
    toolNames AgentMode.perform =
      ["start_task", "complete_task", "fail_task", "add_note", "get_task_list",
        "finish_execution"] :=
  ⟨rfl, rfl, rfl⟩

/-- C5 counterexample: the catalogs are not pairwise non-overlapping — `add_note`
appears in the catalogs of the two distinct modes Explore and Perform. -/
theorem tools_for_mode_overlap_counterexample :
    "add_note" ∈ toolNames AgentMode.explore ∧
    "add_note" ∈ toolNames AgentMode.perform ∧
    AgentMode.explore ≠ AgentMode.perform := by
  decide

/-- C5 (amended): the four catalogs are fixed, but only the shared bookkeeping tools
`add_note` and `get_task_list` occur in more than one mode's catalog: a tool name found
in the catalogs of two distinct modes is `add_note` or `get_task_list`. -/
theorem tools_for_mode_overlap_only_shared (m₁ m₂ : AgentMode) (n : String)
    (h₁ : n ∈ toolNames m₁) (h₂ : n ∈ toolNames m₂) (hne : m₁ ≠ m₂) :
    n = "add_note" ∨ n = "get_task_list" := by
  have key : ∀ a b : AgentMode, a ≠ b →
      ((toolNames a).all (fun s =>
        !((toolNames b).contains s) || (s == "add_note" || s == "get_task_list"))) = true := by
    decide
  have hall := key m₁ m₂ hne
  rw [List.all_eq_true] at hall
  have hn := hall n h₁
  simp only [Bool.or_eq_true, Bool.not_eq_true', beq_iff_eq] at hn
  rcases hn with hno | hs
  · have hc : (toolNames m₂).contains n = true := by simp [h₂]
    rw [hc] at hno
    exact Bool.noConfusion hno
  · exact hs

/-- Witness for the amended C5 theorem at the concrete overlap `add_note` between
Explore and Perform. -/
theorem tools_for_mode_overlap_only_shared_witness :
    "add_note" = "add_note" ∨ "add_note" = "get_task_list" :=
  tools_for_mode_overlap_only_shared AgentMode.explore AgentMode.perform "add_note"
    (by decide) (by decide) (by decide)

lemma all_contains_iff (c l : List String) :
    l.all (fun dep => c.contains dep) = true ↔ ∀ dep ∈ l, dep ∈ c := by
  rw [List.all_eq_true]
  simp

lemma updateTaskBlocked_of_all_true (c : List String) (t : Task)
    (hpb : t.status = TaskStatus.pending ∨ t.status = TaskStatus.blocked)
    (hall : t.blocked_by.all (fun dep => c.contains dep) = true) :
    updateTaskBlocked c t = { t with status := TaskStatus.pending } := by
  rw [updateTaskBlocked_pb c t hpb, hall]
  simp

lemma updateTaskBlocked_of_all_false (c : List String) (t : Task)
    (hpb : t.status = TaskStatus.pending ∨ t.status = TaskStatus.blocked)
    (hall : t.blocked_by.all (fun dep => c.contains dep) = false) :
    updateTaskBlocked c t = { t with status := TaskStatus.blocked } := by
  rw [updateTaskBlocked_pb c t hpb, hall]
  simp

lemma updateTaskBlocked_idem (c : List String) (t : Task) :
    updateTaskBlocked c (updateTaskBlocked c t) = updateTaskBlocked c t := by
  by_cases hpb : t.status = TaskStatus.pending ∨ t.status = TaskStatus.blocked
  · cases hall : t.blocked_by.all (fun dep => c.contains dep)
    · rw [updateTaskBlocked_of_all_false c t hpb hall,
        updateTaskBlocked_of_all_false c { t with status := TaskStatus.blocked }
          (Or.inr rfl) hall]
    · rw [updateTaskBlocked_of_all_true c t hpb hall,
        updateTaskBlocked_of_all_true c { t with status := TaskStatus.pending }
          (Or.inl rfl) hall]
  · push_neg at hpb
    rw [updateTaskBlocked_eq_of_not_pb c t hpb.1 hpb.2,
      updateTaskBlocked_eq_of_not_pb c t hpb.1 hpb.2]

/-- C7: the blocking-status pass changes nothing but task statuses — the context's
other fields survive unchanged, every task keeps all fields except possibly `status`,
and a task whose status is `InProgress`, `Completed` or `Failed` is untouched. -/
theorem update_blocked_status_frame (ctx : AgentContext) :
    ({ ctx.update_blocked_status with tasks := ctx.tasks } = ctx) ∧
    ∀ (i : Nat) (u : Task), ctx.tasks[i]? = some u →
      ∃ v, ctx.update_blocked_status.tasks[i]? = some v ∧
        { v with status := u.status } = u ∧
        ((u.status = TaskStatus.inProgress ∨ u.status = TaskStatus.completed ∨
            u.status = TaskStatus.failed) → v = u) := by
  constructor
  · rfl
  · intro i u hu
    refine ⟨updateTaskBlocked (completedIds ctx.tasks) u, ?_, ?_, ?_⟩
    · simp [AgentContext.update_blocked_status, List.getElem?_map, hu]
    · by_cases hpb : u.status = TaskStatus.pending ∨ u.status = TaskStatus.blocked
      · rw [updateTaskBlocked_pb _ _ hpb]
      · push_neg at hpb
        rw [updateTaskBlocked_eq_of_not_pb _ _ hpb.1 hpb.2]
    · intro h
      apply updateTaskBlocked_eq_of_not_pb
      · rcases h with h | h | h <;> rw [h] <;> simp
      · rcases h with h | h | h <;> rw [h] <;> simp

/-- Witness for the C7 theorem: the frame condition evaluated on a concrete
single-task context holding one `Completed` task. -/
theorem update_blocked_status_frame_witness :
    ∃ v, frameCtx.update_blocked_status.tasks[0]? = some v ∧
      { v with status := frameTask.status } = frameTask ∧
      ((frameTask.status = TaskStatus.inProgress ∨
          frameTask.status = TaskStatus.completed ∨
          frameTask.status = TaskStatus.failed) → v = frameTask) :=
  (update_blocked_status_frame frameCtx).2 0 frameTask (by decide)

/-- C9: `update_blocked_status` is idempotent — a second pass changes nothing. -/
theorem update_blocked_status_idempotent (ctx : AgentContext) :
    ctx.update_blocked_status.update_blocked_status = ctx.update_blocked_status := by
  simp only [AgentContext.update_blocked_status, completedIds_map_updateTaskBlocked,
    List.map_map]
  congr 1
  apply List.map_congr_left
  intro t _
  exact updateTaskBlocked_idem _ t

/-- C1: after a blocking-status pass, every task that is neither `InProgress` nor
`Completed` nor `Failed` is `Blocked` exactly when one of its dependencies is not the
id of any `Completed` task, and is `Pending` otherwise. -/
theorem update_blocked_status_classifies (ctx : AgentContext) (t : Task)
    (ht : t ∈ ctx.update_blocked_status.tasks)
    (h₁ : t.status ≠ TaskStatus.inProgress)
    (h₂ : t.status ≠ TaskStatus.completed)
    (h₃ : t.status ≠ TaskStatus.failed) :
    (t.status = TaskStatus.blocked ↔
      ∃ d ∈ t.blocked_by,
        ∀ u ∈ ctx.update_blocked_status.tasks,
          u.status = TaskStatus.completed → u.id ≠ d) ∧
    (t.status ≠ TaskStatus.blocked → t.status = TaskStatus.pending) := by
  have hcomp : completedIds ctx.update_blocked_status.tasks = completedIds ctx.tasks := by
    simp only [AgentContext.update_blocked_status]
    exact completedIds_map_updateTaskBlocked _ _
  have hform : ∀ d : String,
      (∀ u ∈ ctx.update_blocked_status.tasks,
        u.status = TaskStatus.completed → u.id ≠ d) ↔ d ∉ completedIds ctx.tasks := by
    intro d
    constructor
    · intro h hd
      have hd2 : d ∈ completedIds ctx.update_blocked_status.tasks := by
        rw [hcomp]; exact hd
      obtain ⟨u, hu, hst, hid⟩ := mem_completedIds.mp hd2
      exact h u hu hst hid
    · intro h u hu hst hid
      apply h
      rw [← hcomp]
      exact mem_completedIds.mpr ⟨u, hu, hst, hid⟩
  simp only [hform]
  simp only [AgentContext.update_blocked_status, List.mem_map] at ht
  obtain ⟨t₀, hmem, rfl⟩ := ht
  by_cases hpb : t₀.status = TaskStatus.pending ∨ t₀.status = TaskStatus.blocked
  · cases hall : t₀.blocked_by.all (fun dep => (completedIds ctx.tasks).contains dep)
    · rw [updateTaskBlocked_of_all_false _ _ hpb hall] at h₁ h₂ h₃ ⊢
      refine ⟨⟨fun _ => ?_, fun _ => rfl⟩, fun h => absurd rfl h⟩
      have hnall : ¬(t₀.blocked_by.all
          (fun dep => (completedIds ctx.tasks).contains dep) = true) := by
        rw [hall]; exact Bool.false_ne_true
      rw [List.all_eq_true] at hnall
      push_neg at hnall
      obtain ⟨d, hd, hdc⟩ := hnall
      exact ⟨d, hd, by simpa using hdc⟩
    · rw [updateTaskBlocked_of_all_true _ _ hpb hall] at h₁ h₂ h₃ ⊢
      refine ⟨⟨fun h => absurd h (by simp), ?_⟩, fun _ => rfl⟩
      rintro ⟨d, hd, hdc⟩
      rw [List.all_eq_true] at hall
      exact absurd (by simpa using hall d hd) hdc
  · push_neg at hpb
    rw [updateTaskBlocked_eq_of_not_pb _ _ hpb.1 hpb.2] at h₁ h₂ h₃ ⊢
    cases hst : t₀.status
    · exact absurd hst hpb.1
    · exact absurd hst h₁
    · exact absurd hst h₂
    · exact absurd hst h₃
    · exact absurd hst hpb.2

/-- Witness for the C1 theorem on a concrete context: the blocked task `exB` of
`exCtx` survives the pass and its dependency `a` is not completed. -/
theorem update_blocked_status_classifies_witness :
    (exB.status = TaskStatus.blocked ↔
      ∃ d ∈ exB.blocked_by,
        ∀ u ∈ exCtx.update_blocked_status.tasks,
          u.status = TaskStatus.completed → u.id ≠ d) ∧
    (exB.status ≠ TaskStatus.blocked → exB.status = TaskStatus.pending) :=
  update_blocked_status_classifies exCtx exB (by decide) (by decide) (by decide)
    (by decide)

/-- C10: a task naming a dependency id matching no task of the context is never ready,
and any blocking-status pass classifies it `Blocked` while it is `Pending` or
`Blocked`. -/
theorem dangling_dependency_never_ready (ctx : AgentContext) (i : Nat) (t : Task)
    (d : String) (ht : ctx.tasks[i]? = some t) (hd : d ∈ t.blocked_by)
    (hdangling : ∀ u ∈ ctx.tasks, u.id ≠ d) :
    t.is_ready (completedIds ctx.tasks) = false ∧
    ((t.status = TaskStatus.pending ∨ t.status = TaskStatus.blocked) →
      ∃ v, ctx.update_blocked_status.tasks[i]? = some v ∧
        v.status = TaskStatus.blocked) := by
  have hdc : d ∉ completedIds ctx.tasks := by
    intro hmem
    obtain ⟨u, hu, _, hid⟩ := mem_completedIds.mp hmem
    exact hdangling u hu hid
  have hall : t.blocked_by.all
      (fun dep => (completedIds ctx.tasks).contains dep) = false := by
    apply Bool.eq_false_iff.mpr
    intro htrue
    rw [List.all_eq_true] at htrue
    exact hdc (by simpa using htrue d hd)
  refine ⟨?_, ?_⟩
  · simp only [Task.is_ready, hall, Bool.and_false]
  · intro hpb
    refine ⟨updateTaskBlocked (completedIds ctx.tasks) t, ?_, ?_⟩
    · simp [AgentContext.update_blocked_status, List.getElem?_map, ht]
    · rw [updateTaskBlocked_of_all_false _ _ hpb hall]

/-- Witness for the C10 theorem: the task of `danglingCtx` names the dependency `zzz`
that matches no task, is not ready, and the pass marks it `Blocked`. -/
theorem dangling_dependency_never_ready_witness :
    danglingTask.is_ready (completedIds danglingCtx.tasks) = false ∧
    ((danglingTask.status = TaskStatus.pending ∨
        danglingTask.status = TaskStatus.blocked) →
      ∃ v, danglingCtx.update_blocked_status.tasks[0]? = some v ∧
        v.status = TaskStatus.blocked) :=
  dangling_dependency_never_ready danglingCtx 0 danglingTask "zzz" (by decide)
    (by decide) (by decide)

lemma foldl_min_le (t : Task) (ts : List Task) :
    (ts.foldl (fun acc x => if x.priority < acc.priority then x else acc) t).priority
        ≤ t.priority ∧
    ∀ u ∈ ts,
      (ts.foldl (fun acc x => if x.priority < acc.priority then x else acc) t).priority
        ≤ u.priority := by
  induction ts generalizing t with
  | nil => exact ⟨le_refl _, by simp⟩
  | cons x xs ih =>
    rw [List.foldl_cons]
    obtain ⟨h1, h2⟩ := ih (if x.priority < t.priority then x else t)
    refine ⟨le_trans h1 ?_, ?_⟩
    · split <;> omega
    · intro u hu
      rcases List.mem_cons.mp hu with rfl | hu'
      · exact le_trans h1 (by split <;> omega)
      · exact h2 u hu'

lemma foldl_min_first (t : Task) (ts : List Task) :
    ∃ l₁ l₂,
      t :: ts =
        l₁ ++ (ts.foldl (fun acc x => if x.priority < acc.priority then x else acc) t)
          :: l₂ ∧
      ∀ u ∈ l₁,
        (ts.foldl (fun acc x => if x.priority < acc.priority then x else acc) t).priority
          < u.priority := by
  induction ts generalizing t with
  | nil => exact ⟨[], [], rfl, by simp⟩
  | cons x xs ih =>
    rw [List.foldl_cons]
    by_cases hx : x.priority < t.priority
    · rw [if_pos hx]
      obtain ⟨l₁, l₂, heq, hlt⟩ := ih x
      refine ⟨t :: l₁, l₂, ?_, ?_⟩
      · rw [List.cons_append, ← heq]
      · intro u hu
        rcases List.mem_cons.mp hu with rfl | hu'
        · have hle := (foldl_min_le x xs).1
          omega
        · exact hlt u hu'
    · rw [if_neg hx]
      obtain ⟨l₁, l₂, heq, hlt⟩ := ih t
      cases l₁ with
      | nil =>
        rw [List.nil_append] at heq
        obtain ⟨h1, h2⟩ := List.cons.inj heq
        refine ⟨[], x :: xs, ?_, by simp⟩
        rw [List.nil_append, ← h1]
      | cons a l₁' =>
        rw [List.cons_append] at heq
        obtain ⟨h1, h2⟩ := List.cons.inj heq
        refine ⟨t :: x :: l₁', l₂, ?_, ?_⟩
        · rw [List.cons_append, List.cons_append, ← h2]
        · intro u hu
          have hat : (xs.foldl
              (fun acc x => if x.priority < acc.priority then x else acc) t).priority
              < t.priority := by
            have := hlt a (List.mem_cons_self a l₁')
            rw [← h1] at this
            exact this
          rcases List.mem_cons.mp hu with rfl | hu'
          · exact hat
          · rcases List.mem_cons.mp hu' with rfl | hu''
            · omega
            · exact hlt u (List.mem_cons_of_mem a hu'')

/-- C2: when `get_next_task` returns a task, it is a ready task of minimal priority and
every ready task strictly before it has strictly greater priority (the first-created
task wins a tie); and the result is determined by the task list alone, so two calls on
identical task lists agree. -/
theorem get_next_task_spec :
    (∀ (ctx : AgentContext) (t : Task), ctx.get_next_task = some t →
      (∀ u ∈ ctx.get_ready_tasks, t.priority ≤ u.priority) ∧
      ∃ l₁ l₂, ctx.get_ready_tasks = l₁ ++ t :: l₂ ∧
        ∀ u ∈ l₁, t.priority < u.priority) ∧
    (∀ ctx₁ ctx₂ : AgentContext, ctx₁.tasks = ctx₂.tasks →
      ctx₁.get_next_task = ctx₂.get_next_task) := by
  constructor
  · intro ctx t hnext
    unfold AgentContext.get_next_task at hnext
    cases hready : ctx.get_ready_tasks with
    | nil =>
      rw [hready] at hnext
      exact Option.noConfusion hnext
    | cons x xs =>
      rw [hready] at hnext
      injection hnext with hnext
      subst hnext
      constructor
      · intro u hu
        rcases List.mem_cons.mp hu with rfl | hu'
        · exact (foldl_min_le u xs).1
        · exact (foldl_min_le x xs).2 u hu'
      · obtain ⟨l₁, l₂, heq, hlt⟩ := foldl_min_first x xs
        exact ⟨l₁, l₂, heq, hlt⟩
  · intro ctx₁ ctx₂ h
    unfold AgentContext.get_next_task AgentContext.get_ready_tasks
    rw [h]

/-- Witness for the C2 theorem on `prioCtx`: the returned task `prioB` has minimal
priority 3 and precedes the equal-priority `prioC` in creation order. -/
theorem get_next_task_spec_witness :
    (∀ u ∈ prioCtx.get_ready_tasks, prioB.priority ≤ u.priority) ∧
    ∃ l₁ l₂, prioCtx.get_ready_tasks = l₁ ++ prioB :: l₂ ∧
      ∀ u ∈ l₁, prioB.priority < u.priority :=
  get_next_task_spec.1 prioCtx prioB (by decide)

/-- C4 counterexample: in a context whose blocked flags are stale, completing exactly
one task lets the pass flip a `Blocked` task that does not list the completed task in
its `blocked_by` — `c4Post` differs from `c4Pre` only in `exA` being set `Completed`,
yet the pass turns `c4B` (whose `blocked_by` is empty) from `Blocked` to `Pending`. -/
theorem single_completion_direct_dependents_counterexample :
    c4Pre.tasks = [exA] ++ c4B :: [] ∧
    c4Post.tasks = [{ exA with status := TaskStatus.completed }] ++ c4B :: [] ∧
    exA.status ≠ TaskStatus.completed ∧
    c4B.status = TaskStatus.blocked ∧
    c4Post.update_blocked_status.tasks[1]? =
      some { c4B with status := TaskStatus.pending } ∧
    exA.id ∉ c4B.blocked_by := by
  decide

/-- C4 (amended): starting from a context whose `Pending`/`Blocked` statuses are
consistent (as any blocking-status pass leaves them), changing it only by setting
exactly one task `T`'s status to `Completed` and running one pass changes the status
only of tasks that are `Blocked` and list `T` directly in `blocked_by`, turning them
`Pending`. -/
theorem single_completion_direct_dependents (ctx ctx₂ : AgentContext)
    (l₁ l₂ : List Task) (T : Task)
    (hcons : consistentBlocked ctx.tasks)
    (hpre : ctx.tasks = l₁ ++ T :: l₂)
    (hT : T.status ≠ TaskStatus.completed)
    (hpost : ctx₂.tasks = l₁ ++ { T with status := TaskStatus.completed } :: l₂)
    (i : Nat) (u v : Task)
    (hu : ctx₂.tasks[i]? = some u)
    (hv : ctx₂.update_blocked_status.tasks[i]? = some v)
    (hchange : v.status ≠ u.status) :
    u.status = TaskStatus.blocked ∧ v.status = TaskStatus.pending ∧
      T.id ∈ u.blocked_by := by
  have hmap : ctx₂.update_blocked_status.tasks[i]? =
      (ctx₂.tasks[i]?).map (updateTaskBlocked (completedIds ctx₂.tasks)) := by
    simp [AgentContext.update_blocked_status, List.getElem?_map]
  rw [hmap, hu, Option.map_some'] at hv
  injection hv with hv
  subst hv
  have hc2 : ∀ dep : String,
      dep ∈ completedIds ctx₂.tasks ↔ dep ∈ completedIds ctx.tasks ∨ dep = T.id := by
    intro dep
    rw [hpre, hpost, completedIds_append, completedIds_append,
      completedIds_cons_of_ne T l₂ hT,
      completedIds_cons_of_eq { T with status := TaskStatus.completed } l₂ rfl]
    simp only [List.mem_append, List.mem_cons]
    tauto
  have humem : u ∈ ctx₂.tasks := List.getElem?_mem hu
  rw [hpost] at humem
  have hucases : u = { T with status := TaskStatus.completed } ∨ u ∈ ctx.tasks := by
    rcases List.mem_append.mp humem with h | h
    · exact Or.inr (by rw [hpre]; exact List.mem_append.mpr (Or.inl h))
    · rcases List.mem_cons.mp h with h | h
      · exact Or.inl h
      · exact Or.inr (by
          rw [hpre]
          exact List.mem_append.mpr (Or.inr (List.mem_cons_of_mem T h)))
  rcases hucases with rfl | humem0
  · rw [updateTaskBlocked_eq_of_not_pb _ _ (by simp) (by simp)] at hchange
    exact absurd rfl hchange
  · obtain ⟨hpend, hblk⟩ := hcons u humem0
    by_cases hpb : u.status = TaskStatus.pending ∨ u.status = TaskStatus.blocked
    · rcases hpb with hstat | hstat
      · -- consistent Pending task: all dependencies stay completed, no change
        have hall2 : u.blocked_by.all
            (fun dep => (completedIds ctx₂.tasks).contains dep) = true := by
          rw [all_contains_iff]
          intro dep hdep
          exact (hc2 dep).mpr
            (Or.inl ((all_contains_iff _ _).mp (hpend hstat) dep hdep))
        rw [updateTaskBlocked_of_all_true _ _ (Or.inl hstat) hall2, hstat] at hchange
        exact absurd rfl hchange
      · -- consistent Blocked task
        cases hall2 : u.blocked_by.all
            (fun dep => (completedIds ctx₂.tasks).contains dep)
        · rw [updateTaskBlocked_of_all_false _ _ (Or.inr hstat) hall2, hstat] at hchange
          exact absurd rfl hchange
        · have hmiss : ∃ dep ∈ u.blocked_by, dep ∉ completedIds ctx.tasks := by
            have h1 := hblk hstat
            by_contra hno
            push_neg at hno
            rw [(all_contains_iff _ _).mpr hno] at h1
            exact Bool.noConfusion h1
          obtain ⟨dep, hdep, hdc1⟩ := hmiss
          have hdc2 : dep ∈ completedIds ctx₂.tasks :=
            (all_contains_iff _ _).mp hall2 dep hdep
          have hdT : dep = T.id := by
            rcases (hc2 dep).mp hdc2 with h | h
            · exact absurd h hdc1
            · exact h
          rw [updateTaskBlocked_of_all_true _ _ (Or.inr hstat) hall2]
          exact ⟨hstat, rfl, hdT ▸ hdep⟩
    · push_neg at hpb
      rw [updateTaskBlocked_eq_of_not_pb _ _ hpb.1 hpb.2] at hchange
      exact absurd rfl hchange

/-- Witness for the amended C4 theorem on `exCtx`: completing `exA` lets its direct
dependent `exB` go `Blocked` to `Pending`. -/
theorem single_completion_direct_dependents_witness :
    exB.status = TaskStatus.blocked ∧
    ({ exB with status := TaskStatus.pending } : Task).status = TaskStatus.pending ∧
    exA.id ∈ exB.blocked_by :=
  single_completion_direct_dependents exCtx exCtxDone [] [exB] exA
    (by unfold consistentBlocked; decide) (by decide) (by decide) (by decide) 1 exB
    { exB with status := TaskStatus.pending } (by decide) (by decide) (by decide)

/-- C8: the registry keeps at most one live top-level handle per channel — `start` on
a channel with a live handle fails with `AlreadyRunning` (registering nothing), and
`start` succeeding from a registry satisfying the one-per-channel invariant yields a
registry still satisfying it. -/
theorem registry_start_already_running (reg : ExecutionRegistry)
    (channel_id session_id : Nat) (execution_id : String) (now : Nat) :
    (reg.hasLive channel_id = true →
      reg.start channel_id session_id execution_id now =
        Except.error RegistryError.alreadyRunning) ∧
    (reg.atMostOnePerChannel →
      ∀ (h : ExecutionHandle) (reg' : ExecutionRegistry),
        reg.start channel_id session_id execution_id now = Except.ok (h, reg') →
          reg'.atMostOnePerChannel) := by
  constructor
  · intro hl
    unfold ExecutionRegistry.start
    rw [if_pos hl]
  · intro hinv h reg' hok
    unfold ExecutionRegistry.start at hok
    by_cases hl : reg.hasLive channel_id = true
    · rw [if_pos hl] at hok
      exact Except.noConfusion hok
    · rw [if_neg hl] at hok
      injection hok with hok
      injection hok with hok1 hok2
      subst hok2
      intro c
      rw [List.filter_cons]
      split
      · rename_i hc
        have hcid : c = channel_id := by
          have : (channel_id == c) = true := hc
          exact (beq_iff_eq.mp this).symm
        subst hcid
        have hnone : ∀ x ∈ reg.handles, ¬((fun hh => hh.channel_id == c) x = true) := by
          rw [← List.any_eq_false]
          rw [Bool.not_eq_true] at hl
          exact hl
        rw [List.filter_eq_nil_iff.mpr hnone]
        simp
      · exact hinv c

/-- Witness for the C8 theorem: starting channel 5 twice without cancelling — the
first `start` succeeds and the second fails with `AlreadyRunning`, the registry after
the first start still holding one handle per channel. -/
theorem registry_start_already_running_witness :
    ((ExecutionRegistry.mk
        [ExecutionHandle.mk 5 9 false "exec-1" 0]).hasLive 5 = true →
      (ExecutionRegistry.mk
        [ExecutionHandle.mk 5 9 false "exec-1" 0]).start 5 9 "exec-2" 1 =
          Except.error RegistryError.alreadyRunning) ∧
    ((ExecutionRegistry.mk
        [ExecutionHandle.mk 5 9 false "exec-1" 0]).hasLive 5 = true) ∧
    ((ExecutionRegistry.mk []).start 5 9 "exec-1" 0 =
      Except.ok (ExecutionHandle.mk 5 9 false "exec-1" 0,
        ExecutionRegistry.mk [ExecutionHandle.mk 5 9 false "exec-1" 0])) :=
  ⟨(registry_start_already_running
      (ExecutionRegistry.mk [ExecutionHandle.mk 5 9 false "exec-1" 0]) 5 9 "exec-2" 1).1,
    by decide, by rfl⟩

end StarkBot
